import Mathlib

/-!
Verification of the MCP (Model Context Protocol) integration layer of the
siyuan-plugin-copilot repository: the security policy (policy.ts), the tool
cache (cache.ts), the protocol client's response decoding (client.ts) and
the tool orchestrator (mcpTools.ts).

Modelling conventions of the shallow embedding:
  - JavaScript numbers that the code uses as integers (timestamps, TTLs,
    byte sizes, limits) are modelled as `Int`.
  - JavaScript strings are Lean `String`s; where the code processes a
    string character by character (the SSE buffer loop) they are `List Char`.
  - Thrown exceptions are modelled with `Except`.
  - Untyped JavaScript values flowing out of JSON parsing are modelled by
    the inductive `JSValue`, with property access, optional chaining and
    truthiness given their JavaScript semantics.
  - Platform functions (`JSON.parse`, `fetch`, the network) are parameters
    of the definitions that call them; everything written in the repository
    itself is translated directly.
-/

namespace Copilot

/-- Single-quote character, used to build the policy reason strings that the
source writes with quoted tool names. -/
def squote : String := String.singleton (Char.ofNat 39)

/-! ## JavaScript value model -/

/-- Untyped JavaScript runtime value, as needed to model the untyped
response handling in client.ts. -/
inductive JSValue where
  | undefined : JSValue
  | null : JSValue
  | bool (b : Bool) : JSValue
  | num (n : Int) : JSValue
  | str (s : String) : JSValue
  | arr (elems : List JSValue) : JSValue
  | obj (fields : List (String × JSValue)) : JSValue

/-- JavaScript property access `v.key`: raises a TypeError on null or
undefined receivers; on an object it yields the first binding of the key, or
undefined when the key is missing; on a primitive or an array it yields
undefined (none of the property names this code reads exist there). -/
def getField : JSValue → String → Except Unit JSValue
  | .undefined, _ => .error ()
  | .null, _ => .error ()
  | .obj fields, key =>
    .ok (match fields.find? (fun kv => kv.1 == key) with
         | some kv => kv.2
         | none => .undefined)
  | _, _ => .ok .undefined

/-- JavaScript optional chaining `v?.key`: undefined, without raising, on a
null or undefined receiver; plain access otherwise. -/
def optChain (v : JSValue) (key : String) : JSValue :=
  match v with
  | .undefined => .undefined
  | .null => .undefined
  | w => match getField w key with
         | .ok r => r
         | .error _ => .undefined

/-- JavaScript truthiness of a value. -/
def truthy : JSValue → Bool
  | .undefined => false
  | .null => false
  | .bool b => b
  | .num n => n != 0
  | .str s => s != ""
  | .arr _ => true
  | .obj _ => true

/-! ## Data model (types.ts) -/

/-- Configuration (types.ts, McpConfig). -/
structure McpConfig where
  enabled : Bool
  serverUrl : String
  authToken : String
  timeoutMs : Int
  maxArgChars : Int
  allowTools : List String
  denyTools : List String
  refreshToolsOnStart : Bool

/-- Policy decision (types.ts, PolicyCheckResult); the reason field is
absent on success. -/
structure PolicyCheckResult where
  allowed : Bool
  reason : Option String
  deriving DecidableEq

/-- One entry produced by the tool-mapping closure in McpClient.listTools:
name and description are taken from the raw entry as-is, the input schema is
rebuilt with the constant type "object" and defaulted properties/required.
The fields keep the raw JavaScript values the closure stores. -/
structure RawAdaptedTool where
  name : JSValue
  description : JSValue
  schemaProperties : JSValue
  schemaRequired : JSValue

/-- Content block of a tools/call result (types.ts, McpContent). -/
structure McpContent where
  type : String
  text : Option String
  data : Option String
  mimeType : Option String

/-- Result of a tools/call invocation (types.ts, McpCallToolResult); an
absent isError is modelled as false. -/
structure McpCallToolResult where
  content : List McpContent
  isError : Bool

/-- Error codes of the MCP layer (types.ts, McpErrorCode). -/
inductive McpErrorCode where
  | ParseError
  | InvalidRequest
  | MethodNotFound
  | InvalidParams
  | InternalError
  | ServerError
  deriving DecidableEq

/-- Typed protocol error (types.ts, McpError). -/
structure McpError where
  code : McpErrorCode
  message : String

/-! ## Argument serialization (JSON.stringify and Blob byte size)

The policy measures `new Blob([JSON.stringify(args)]).size`, the UTF-8 byte
length of the canonical JSON serialization.  `Json` models the
JSON-serializable argument trees, `jsonStringify` the serializer. -/

/-- JSON value tree: the shape of a serializable `Record<string, unknown>`
argument map and its parts. -/
inductive Json where
  | null : Json
  | bool (b : Bool) : Json
  | num (n : Int) : Json
  | str (s : String) : Json
  | arr (elems : List Json) : Json
  | obj (fields : List (String × Json)) : Json

/-- Hexadecimal digit of a value below 16, for JSON control-character
escapes. -/
def hexDigit (n : Nat) : String :=
  String.singleton (if n < 10 then Char.ofNat (48 + n) else Char.ofNat (87 + n))

/-- Escape of one character inside a JSON string literal, as performed by
JSON.stringify. -/
def jsonEscapeChar (c : Char) : String :=
  if c = Char.ofNat 34 then "\\\""
  else if c = Char.ofNat 92 then "\\\\"
  else if c = Char.ofNat 8 then "\\b"
  else if c = Char.ofNat 9 then "\\t"
  else if c = Char.ofNat 10 then "\\n"
  else if c = Char.ofNat 12 then "\\f"
  else if c = Char.ofNat 13 then "\\r"
  else if c.toNat < 32 then "\\u00" ++ hexDigit (c.toNat / 16) ++ hexDigit (c.toNat % 16)
  else String.singleton c

/-- Quoted and escaped JSON string literal. -/
def jsonQuote (s : String) : String :=
  "\"" ++ String.join (s.data.map jsonEscapeChar) ++ "\""

mutual

/-- JSON.stringify on a JSON value tree (no spacing, insertion-ordered
object keys). -/
def jsonStringify : Json → String
  | .null => "null"
  | .bool true => "true"
  | .bool false => "false"
  | .num n => toString n
  | .str s => jsonQuote s
  | .arr elems => "[" ++ jsonStringifyElems elems ++ "]"
  | .obj fields => "\x7b" ++ jsonStringifyFields fields ++ "\x7d"

/-- Comma-joined serialization of array elements. -/
def jsonStringifyElems : List Json → String
  | [] => ""
  | [x] => jsonStringify x
  | x :: y :: rest => jsonStringify x ++ "," ++ jsonStringifyElems (y :: rest)

/-- Comma-joined serialization of object fields. -/
def jsonStringifyFields : List (String × Json) → String
  | [] => ""
  | [kv] => jsonQuote kv.1 ++ ":" ++ jsonStringify kv.2
  | kv :: kv2 :: rest =>
    jsonQuote kv.1 ++ ":" ++ jsonStringify kv.2 ++ "," ++ jsonStringifyFields (kv2 :: rest)

end

/-- Byte size measured by the source: `new Blob([JSON.stringify(args)]).size`
is the UTF-8 byte length of the serialized JSON. -/
def serializedSize (args : Json) : Nat := (jsonStringify args).utf8ByteSize

/-! ## Policy engine (policy.ts, class McpPolicy) -/

/-- McpPolicy.checkToolAccess.  The stored configuration is `none` before
`configure` was ever called.  Matching is List.contains, exact case-sensitive
string equality, on the unprefixed tool name. -/
def checkToolAccess (config : Option McpConfig) (toolName : String) : PolicyCheckResult :=
  match config with
  | none => { allowed := false, reason := some "MCP is not enabled" }
  | some c =>
    if c.enabled = false then { allowed := false, reason := some "MCP is not enabled" }
    else if 0 < c.denyTools.length ∧ c.denyTools.contains toolName = true then
      { allowed := false,
        reason := some ("Tool " ++ squote ++ toolName ++ squote ++ " is in deny list") }
    else if 0 < c.allowTools.length ∧ c.allowTools.contains toolName = false then
      { allowed := false,
        reason := some ("Tool " ++ squote ++ toolName ++ squote ++ " is not in allow list") }
    else { allowed := true, reason := none }

/-- McpPolicy.checkArgumentSize: fail-open when no configuration is stored;
otherwise deny exactly when the serialized byte size strictly exceeds
`maxArgChars * 1024` (the configured kilobyte ceiling converted to bytes). -/
def checkArgumentSize (config : Option McpConfig) (args : Json) : PolicyCheckResult :=
  match config with
  | none => { allowed := true, reason := none }
  | some c =>
    let size : Int := (serializedSize args : Nat)
    let maxChars : Int := c.maxArgChars * 1024
    if size > maxChars then
      { allowed := false,
        reason := some ("Argument size " ++ toString size ++ " bytes exceeds limit " ++
          toString maxChars ++ " bytes") }
    else { allowed := true, reason := none }

/-! ## Tool cache (cache.ts, class McpToolCache) -/

/-- Cache entry (cache.ts, CacheEntry&lt;T&gt;). -/
structure CacheEntry (α : Type) where
  data : α
  timestamp : Int
  ttl : Int

/-- State of a McpToolCache instance: its toolsCache field. -/
structure CacheState where
  toolsCache : Option (CacheEntry (List RawAdaptedTool))

/-- Default TTL of five minutes (cache.ts, defaultTtlMs). -/
def defaultTtlMs : Int := 5 * 60 * 1000

/-- McpToolCache.getTools at time `now` (Date.now()): absent on an empty
cache; on `now - timestamp > ttl` the entry is dropped and absent is
returned; otherwise the cached data. -/
def getTools (now : Int) (st : CacheState) : Option (List RawAdaptedTool) × CacheState :=
  match st.toolsCache with
  | none => (none, st)
  | some entry =>
    if now - entry.timestamp > entry.ttl then (none, { toolsCache := none })
    else (some entry.data, st)

/-- Model of the JavaScript expression `ttlMs || defaultTtlMs`: an absent or
zero (falsy) argument selects the default. -/
def jsNumOr (v : Option Int) (d : Int) : Int :=
  match v with
  | none => d
  | some t => if t = 0 then d else t

/-- McpToolCache.setTools at time `now`: replaces the entry wholesale. -/
def setTools (tools : List RawAdaptedTool) (now : Int) (ttlMs : Option Int)
    (_st : CacheState) : CacheState :=
  { toolsCache := some { data := tools, timestamp := now, ttl := jsNumOr ttlMs defaultTtlMs } }

/-- McpToolCache.invalidate: clears the entry unconditionally. -/
def invalidate (_st : CacheState) : CacheState := { toolsCache := none }

/-- McpToolCache.forceRefresh delegates to invalidate. -/
def forceRefresh (st : CacheState) : CacheState := invalidate st

/-- McpToolCache.getCacheAge at time `now`: elapsed time since the entry was
set, or absent on an empty cache; the state is returned unchanged because the
source method only reads the field. -/
def getCacheAge (now : Int) (st : CacheState) : Option Int × CacheState :=
  match st.toolsCache with
  | none => (none, st)
  | some entry => (some (now - entry.timestamp), st)

/-! ## Protocol client response decoding (client.ts, McpClient.listTools)

listTools issues the tools/list request and decodes the response.  The
mapping closure applied to every raw entry is shared verbatim by the SSE
branch and the plain-JSON branch of the source.  `JSON.parse` is a platform
function and enters the SSE decoder as the `parse` parameter. -/

/-- Tool-mapping closure of McpClient.listTools applied to one raw entry:
`(tool) => (\x7b name: tool.name, description: tool.description || '',
inputSchema: \x7b type: 'object', properties: tool.inputSchema?.properties || \x7b\x7d,
required: tool.inputSchema?.required || [] \x7d \x7d)`.  Property access on a
null or undefined entry raises, which the callers catch. -/
def adaptRawTool (tool : JSValue) : Except Unit RawAdaptedTool := do
  let n ← getField tool "name"
  let d ← getField tool "description"
  let s ← getField tool "inputSchema"
  let props := optChain s "properties"
  let req := optChain s "required"
  .ok { name := n,
        description := if truthy d then d else .str "",
        schemaProperties := if truthy props then props else .obj [],
        schemaRequired := if truthy req then req else .arr [] }

/-- Model of `tools?.map(adapt)` on the optionally-chained tools value: none
for undefined/null (the chain yields undefined), the mapped list for an
array, and a raised TypeError for any other value (whose `.map` is not a
function). -/
def decodeToolsValue (t : JSValue) : Except Unit (Option (List RawAdaptedTool)) :=
  match t with
  | .undefined => .ok none
  | .null => .ok none
  | .arr elems => (elems.mapM adaptRawTool).map some
  | _ => .error ()

/-- Decoding of one parsed frame in the SSE branch:
`result.result?.tools?.map(adapt) || []`.  A raised TypeError propagates to
the surrounding catch of listTools. -/
def frameDecode (v : JSValue) : Except Unit (List RawAdaptedTool) := do
  let r ← getField v "result"
  let mapped ← decodeToolsValue (optChain r "tools")
  match mapped with
  | some tools => .ok tools
  | none => .ok []

/-- Core of the plain-JSON branch of listTools:
`result := json.result; tools := result?.tools || []; tools.map(adapt)`. -/
def jsonListToolsCore (v : JSValue) : Except Unit (List RawAdaptedTool) := do
  let r ← getField v "result"
  let t := optChain r "tools"
  let t2 := if truthy t then t else .arr []
  match t2 with
  | .arr elems => elems.mapM adaptRawTool
  | _ => .error ()

/-- Plain-JSON branch of listTools including its surrounding catch, which
turns any raised TypeError into the empty tool list. -/
def jsonListTools (v : JSValue) : List RawAdaptedTool :=
  match jsonListToolsCore v with
  | .ok l => l
  | .error _ => []

/-- SSE frame prefix `data: `. -/
def dataPrefix : List Char := "data: ".data

/-- Terminal SSE sentinel `[DONE]`. -/
def doneSentinel : List Char := "[DONE]".data

/-- Outcome of scanning the split buffer lines: the terminal sentinel was
seen, or a data line parsed to a JSON value. -/
inductive ScanHit where
  | done : ScanHit
  | parsed (v : JSValue) : ScanHit

/-- The for-loop over the split buffer: the first line carrying the `data: `
marker whose payload is the sentinel or parses as JSON stops the scan; other
lines (heartbeats, partial frames whose payload fails to parse) are
skipped. -/
def scanLines (parse : List Char → Option JSValue) : List (List Char) → Option ScanHit
  | [] => none
  | line :: rest =>
    if dataPrefix.isPrefixOf line then
      let d := line.drop 6
      if d = doneSentinel then some .done
      else
        match parse d with
        | some v => some (.parsed v)
        | none => scanLines parse rest
    else scanLines parse rest

/-- Model of `buffer.split('\n')` on the accumulated character buffer. -/
def lineSplit : List Char → List (List Char)
  | [] => [[]]
  | c :: rest =>
    if c = '\n' then [] :: lineSplit rest
    else
      match lineSplit rest with
      | [] => [[c]]
      | l :: ls => (c :: l) :: ls

/-- The SSE read loop of listTools: every chunk delivered by the reader is
appended to the buffer, the buffer is split into lines and scanned; the loop
returns the empty list at the sentinel or when the stream ends, and the
decoded frame at the first parsing data line (a raised TypeError
propagates). -/
def sseLoop (parse : List Char → Option JSValue) :
    List Char → List (List Char) → Except Unit (List RawAdaptedTool)
  | _, [] => .ok []
  | buffer, chunk :: rest =>
    let buf := buffer ++ chunk
    match scanLines parse (lineSplit buf) with
    | some .done => .ok []
    | some (.parsed v) => frameDecode v
    | none => sseLoop parse buf rest

/-- SSE branch of listTools including its surrounding catch. -/
def sseListTools (parse : List Char → Option JSValue) (chunks : List (List Char)) :
    List RawAdaptedTool :=
  match sseLoop parse [] chunks with
  | .ok l => l
  | .error _ => []

/-! ## Protocol client invocation (client.ts, McpClient.callTool) -/

/-- Concatenated text content of an error payload: filter the text blocks,
project their text and join with a newline (Array.prototype.join renders an
undefined element as the empty string). -/
def errorText (result : McpCallToolResult) : String :=
  String.intercalate "\n"
    ((result.content.filter (fun c => c.type == "text")).map (fun c => c.text.getD ""))

/-- McpClient.callTool: raises InvalidRequest on a non-ready session; a
failure raised by the underlying SDK request is wrapped as a ServerError; a
returned result with isError set is converted into a raised ServerError
carrying the concatenated text content (or a fixed message when that text is
empty).  `reqOutcome` is the outcome of the platform call
`client.request(\x7bmethod: 'tools/call'\x7d, ...)`. -/
def clientCallTool (connected : Bool) (reqOutcome : Except String McpCallToolResult)
    (name : String) : Except McpError McpCallToolResult :=
  if connected = false then
    .error { code := .InvalidRequest, message := "Not connected to MCP server" }
  else
    match reqOutcome with
    | .error msg =>
      .error { code := .ServerError,
               message := "Tool " ++ squote ++ name ++ squote ++ " execution failed: " ++ msg }
    | .ok result =>
      if result.isError then
        .error { code := .ServerError,
                 message := if errorText result = "" then "Tool execution returned error"
                            else errorText result }
      else .ok result

/-! ## Schema adapter (mcpTools.ts: mcpToolToCopilotTool and helpers) -/

/-- Assistant-facing adapted tool (the AVAILABLE_TOOLS function format). -/
structure CopilotTool where
  name : String
  description : String
  parameters : JSValue

mutual

/-- JavaScript string conversion of a value, as performed by a template
literal: arrays join their elements with commas (null and undefined elements
render empty), objects render as `[object Object]`. -/
def jsDisplay : JSValue → String
  | .undefined => "undefined"
  | .null => "null"
  | .bool true => "true"
  | .bool false => "false"
  | .num n => toString n
  | .str s => s
  | .arr elems => jsDisplayElems elems
  | .obj _ => "[object Object]"

/-- Comma-joined display of array elements. -/
def jsDisplayElems : List JSValue → String
  | [] => ""
  | [x] => jsDisplayElem x
  | x :: y :: rest => jsDisplayElem x ++ "," ++ jsDisplayElems (y :: rest)

/-- Display of one array element inside a join: null and undefined render as
the empty string. -/
def jsDisplayElem : JSValue → String
  | .undefined => ""
  | .null => ""
  | v => jsDisplay v

end

/-- Predicate `typeof v === 'object'` (true for null, arrays and objects). -/
def typeofObject : JSValue → Bool
  | .null => true
  | .arr _ => true
  | .obj _ => true
  | _ => false

/-- Predicate `typeof v === 'string'`. -/
def typeofString : JSValue → Bool
  | .str _ => true
  | _ => false

/-- Predicate Array.isArray. -/
def isArray : JSValue → Bool
  | .arr _ => true
  | _ => false

/-- Length of an array value (callers guard with Array.isArray). -/
def jsArrayLength : JSValue → Nat
  | .arr elems => elems.length
  | _ => 0

/-- Object.entries: the key/value pairs of an object, the index/element
pairs of an array, empty for primitives. -/
def objEntries : JSValue → List (String × JSValue)
  | .obj fields => fields
  | .arr elems => elems.enum.map (fun p => (toString p.1, p.2))
  | _ => []

/-- Helper mapMcpTypeToJsonSchemaType: the switch on the MCP type string;
anything unrecognized (including non-strings) falls to the default
"string". -/
def mapMcpTypeToJsonSchemaType (mcpType : JSValue) : String :=
  match mcpType with
  | .str "string" => "string"
  | .str "number" => "number"
  | .str "integer" => "number"
  | .str "boolean" => "boolean"
  | .str "array" => "array"
  | .str "object" => "object"
  | _ => "string"

/-- Helper convertMcpPropertyToJsonSchema: builds the JSON-Schema property
object, keeping description (when truthy), default (when not undefined),
enum (when truthy) and the numeric/length bounds (when not undefined).  The
receiver is an object, so plain access never raises and is modelled by
`optChain`. -/
def convertMcpPropertyToJsonSchema (prop : JSValue) : JSValue :=
  let ptype := optChain prop "type"
  let f0 := [("type", JSValue.str (mapMcpTypeToJsonSchemaType
              (if truthy ptype then ptype else .str "string")))]
  let f1 := f0 ++ (if truthy (optChain prop "description") then
              [("description", optChain prop "description")] else [])
  let f2 := f1 ++ (match optChain prop "default" with
              | .undefined => [] | v => [("default", v)])
  let f3 := f2 ++ (if truthy (optChain prop "enum") then
              [("enum", optChain prop "enum")] else [])
  let f4 := f3 ++ (match optChain prop "minimum" with
              | .undefined => [] | v => [("minimum", v)])
  let f5 := f4 ++ (match optChain prop "maximum" with
              | .undefined => [] | v => [("maximum", v)])
  let f6 := f5 ++ (match optChain prop "minLength" with
              | .undefined => [] | v => [("minLength", v)])
  let f7 := f6 ++ (match optChain prop "maxLength" with
              | .undefined => [] | v => [("maxLength", v)])
  JSValue.obj f7

/-- Helper convertMcpSchemaToJsonSchema applied to the schema object the
client built (type "object" plus the given properties and required values):
required passes through when it is a non-empty array; properties are
converted entry-wise, skipping entries that are not objects; the result
always carries type "object". -/
def convertMcpSchemaToJsonSchema (schemaProps schemaReq : JSValue) : JSValue :=
  let requiredPart :=
    if truthy schemaReq ∧ isArray schemaReq = true ∧ 0 < jsArrayLength schemaReq then
      [("required", schemaReq)]
    else []
  let propsPart :=
    if truthy schemaProps ∧ typeofObject schemaProps = true then
      ("properties", JSValue.obj ((objEntries schemaProps).filterMap (fun kv =>
        if truthy kv.2 ∧ typeofObject kv.2 = true then
          some (kv.1, convertMcpPropertyToJsonSchema kv.2)
        else none)))
    else ("properties", JSValue.obj [])
  JSValue.obj ([("type", JSValue.str "object")] ++ [propsPart] ++ requiredPart)

/-- mcpToolToCopilotTool (the Schema Adapter): a falsy name yields the
indexed placeholder; otherwise the name is prefixed with `mcp_`, the
description with the provenance tag `[MCP] ` (or replaced by the
no-description marker carrying the tool name), and the input schema is
converted.  The entries reaching it from the client are always objects, so
the not-an-object branch of the source cannot fire and the schema object is
always well-formed. -/
def mcpToolToCopilotTool (tool : RawAdaptedTool) (index : Nat) : CopilotTool :=
  if truthy tool.name = false then
    { name := "mcp_invalid_tool_" ++ toString index,
      description := "[MCP] Invalid tool - missing name",
      parameters := JSValue.obj [("type", JSValue.str "object"), ("properties", JSValue.obj [])] }
  else
    { name := "mcp_" ++ jsDisplay tool.name,
      description :=
        if truthy tool.description ∧ typeofString tool.description = true then
          "[MCP] " ++ jsDisplay tool.description
        else "[MCP] " ++ jsDisplay tool.name ++ " - No description available",
      parameters := convertMcpSchemaToJsonSchema tool.schemaProperties tool.schemaRequired }

/-! ## Tool orchestrator (mcpTools.ts: getMcpTools and callMcpTool)

The orchestrator owns the singleton client, policy and cache.  `SysState`
bundles their mutable state: whether the client session is open
(isInitialized and a live client), the cache state, and the configuration
stored in the policy by `configure`.  `OrchEnv` carries the outcomes of the
platform operations of one run: the connect handshake, the discovery
response, and the tools/call request. -/

/-- Mutable state shared by the singleton client, policy and cache. -/
structure SysState where
  sessionOpen : Bool
  cache : CacheState
  policyConfig : Option McpConfig

/-- Environment of one orchestrator operation: outcome of connect, the tool
list a successful discovery yields (client.listTools catches its own errors
and always returns a list), and the outcome of the tools/call request. -/
structure OrchEnv where
  connectOutcome : Except String Unit
  discoveredTools : List RawAdaptedTool
  reqOutcome : Except String McpCallToolResult

/-- Structured result of callMcpTool. -/
structure CallMcpOutcome where
  success : Bool
  result : Option String
  error : Option String
  deriving DecidableEq

/-- Rendering of `reason` inside a template literal: an absent reason
renders as "undefined". -/
def reasonOr (r : Option String) : String := r.getD "undefined"

/-- Model of `toolName.startsWith("mcp_")` (JavaScript
String.prototype.startsWith). -/
def jsStartsWith (s p : String) : Bool := p.data.isPrefixOf s.data

/-- Model of `toolName.slice(4)`: drop the first four characters. -/
def jsSlice (s : String) (n : Nat) : String := String.mk (s.data.drop n)

/-- The prefix-stripping line of callMcpTool:
`toolName.startsWith("mcp_") ? toolName.slice(4) : toolName`. -/
def actualToolName (toolName : String) : String :=
  if jsStartsWith toolName "mcp_" then jsSlice toolName 4 else toolName

/-- Truthiness of an optional string field: absent and empty are falsy. -/
def truthyStrOpt : Option String → Bool
  | some t => t != ""
  | none => false

/-- formatMcpResult on one content block: a text block with truthy text
contributes its text; an image block with truthy data contributes the
truncated data-URL marker (mimeType defaulting to image/png); other blocks
contribute nothing. -/
def formatContent (c : McpContent) : Option String :=
  if c.type = "text" ∧ truthyStrOpt c.text = true then c.text
  else if c.type = "image" ∧ truthyStrOpt c.data = true then
    some ("[Image: data:" ++
      (match c.mimeType with
       | some m => if m = "" then "image/png" else m
       | none => "image/png") ++
      ";base64," ++ (c.data.getD "").take 50 ++ "...]")
  else none

/-- formatMcpResult: join the contributed parts with newlines, with the
no-content marker when the join is empty. -/
def formatMcpResult (result : McpCallToolResult) : String :=
  let joined := String.intercalate "\n" (result.content.filterMap formatContent)
  if joined = "" then "[No content]" else joined

/-- Orchestrator callMcpTool: strips the namespace prefix, runs the two
policy checks (tool access, then argument size) against the configuration
stored in the policy singleton, then connect, callTool, disconnect.  Any
raised error is caught, the session is torn down, and the failure is tagged
MCP_CONNECTION_ERROR with the error's message.  The isError check after
callTool mirrors the source even though clientCallTool never returns a
result with isError set (it raises instead). -/
def callMcpTool (env : OrchEnv) (toolName : String) (args : Json) (_config : McpConfig)
    (st : SysState) : CallMcpOutcome × SysState :=
  let actual := actualToolName toolName
  let accessCheck := checkToolAccess st.policyConfig actual
  if accessCheck.allowed = false then
    ({ success := false, result := none,
       error := some ("MCP_TOOL_NOT_ALLOWED: " ++ reasonOr accessCheck.reason) }, st)
  else
    let sizeCheck := checkArgumentSize st.policyConfig args
    if sizeCheck.allowed = false then
      ({ success := false, result := none,
         error := some ("MCP_INVALID_ARGUMENT: " ++ reasonOr sizeCheck.reason) }, st)
    else
      match env.connectOutcome with
      | .error msg =>
        ({ success := false, result := none,
           error := some ("MCP_CONNECTION_ERROR: " ++ msg) },
         { st with sessionOpen := false })
      | .ok _ =>
        match clientCallTool true env.reqOutcome actual with
        | .error e =>
          ({ success := false, result := none,
             error := some ("MCP_CONNECTION_ERROR: " ++ e.message) },
           { st with sessionOpen := false })
        | .ok result =>
          if result.isError then
            ({ success := false, result := none,
               error := some ("MCP_SERVER_ERROR: " ++ errorText result) },
             { st with sessionOpen := false })
          else
            ({ success := true, result := some (formatMcpResult result), error := none },
             { st with sessionOpen := false })

/-- Orchestrator getMcpTools at time `now`: empty when disabled; stores the
configuration in the policy; serves the adapted cached list on a cache hit;
otherwise connects, lists, caches, disconnects and returns the adapted list,
and on any raised failure disconnects and degrades to the empty list. -/
def getMcpTools (env : OrchEnv) (config : McpConfig) (now : Int) (st : SysState) :
    List CopilotTool × SysState :=
  if config.enabled = false then ([], st)
  else
    let st1 : SysState := { st with policyConfig := some config }
    match getTools now st1.cache with
    | (some cachedTools, cache1) =>
      (cachedTools.enum.map (fun p => mcpToolToCopilotTool p.2 p.1),
       { st1 with cache := cache1 })
    | (none, cache1) =>
      match env.connectOutcome with
      | .error _ =>
        ([], { st1 with cache := cache1, sessionOpen := false })
      | .ok _ =>
        let tools := env.discoveredTools
        let cache2 := setTools tools now none cache1
        (tools.enum.map (fun p => mcpToolToCopilotTool p.2 p.1),
         { st1 with cache := cache2, sessionOpen := false })

/-! ## Theorems -/

/-- C2: for every configured, enabled policy, checkToolAccess denies with
the deny-list reason whenever the name is in the deny-list (so also when it
is in the allow-list: the deny-list check runs first), denies with the
not-in-allow-list reason when the allow-list is non-empty and the name is
absent from it, and allows otherwise — in particular an empty allow-list
allows every name the deny-list does not exclude.  Membership is exact
case-sensitive string equality on the unprefixed name. -/
theorem checkToolAccess_cases (c : McpConfig) (name : String) (henabled : c.enabled = true) :
    (name ∈ c.denyTools →
      checkToolAccess (some c) name =
        { allowed := false,
          reason := some ("Tool " ++ squote ++ name ++ squote ++ " is in deny list") }) ∧
    (name ∉ c.denyTools → c.allowTools ≠ [] → name ∉ c.allowTools →
      checkToolAccess (some c) name =
        { allowed := false,
          reason := some ("Tool " ++ squote ++ name ++ squote ++ " is not in allow list") }) ∧
    (name ∉ c.denyTools → (c.allowTools = [] ∨ name ∈ c.allowTools) →
      checkToolAccess (some c) name = { allowed := true, reason := none }) := by
  refine ⟨fun hd => ?_, fun hd ha hm => ?_, fun hd hor => ?_⟩
  · have hlen : 0 < c.denyTools.length := List.length_pos.mpr (List.ne_nil_of_mem hd)
    simp [checkToolAccess, henabled, hlen, hd]
  · have hlen : 0 < c.allowTools.length := List.length_pos.mpr ha
    simp [checkToolAccess, henabled, hd, hlen, hm]
  · rcases hor with hemp | hmem
    · simp [checkToolAccess, henabled, hd, hemp]
    · simp [checkToolAccess, henabled, hd, hmem]

/-- Witness for checkToolAccess_cases: with deny-list containing "search"
and allow-list also containing it, the name is denied with the deny-list
reason. -/
theorem checkToolAccess_cases_witness :
    checkToolAccess
      (some { enabled := true, serverUrl := "http://s", authToken := "", timeoutMs := 20000,
              maxArgChars := 12000, allowTools := ["search"], denyTools := ["search"],
              refreshToolsOnStart := false }) "search" =
      { allowed := false,
        reason := some ("Tool " ++ squote ++ "search" ++ squote ++ " is in deny list") } :=
  (checkToolAccess_cases _ "search" rfl).1 (by decide)

/-- Cache entry at the expiry boundary: set at time 0 with a TTL of 100. -/
def boundaryEntry : CacheEntry (List RawAdaptedTool) :=
  { data := [], timestamp := 0, ttl := 100 }

/-- C3 counterexample: at age exactly equal to the TTL (now = 100 for an
entry set at 0 with TTL 100) the claim says the entry is treated as absent
and cleared, but getTools still returns the cached list and leaves the entry
in place — expiry uses a strict `now - timestamp > ttl` comparison. -/
theorem getTools_boundary_counterexample :
    (getTools 100 { toolsCache := some boundaryEntry }).1 = some [] ∧
    (getTools 100 { toolsCache := some boundaryEntry }).1 ≠ none ∧
    (getTools 100 { toolsCache := some boundaryEntry }).2.toolsCache = some boundaryEntry := by
  refine ⟨rfl, ?_, rfl⟩
  intro h
  rw [show (getTools 100 { toolsCache := some boundaryEntry }).1 = some [] from rfl] at h
  exact Option.noConfusion h

/-- C3 amended: a cache entry is returned exactly while its age is less
than or equal to its TTL (the boundary age = TTL is still served); only when
the age strictly exceeds the TTL is the entry treated as absent and, as a
side effect, cleared. -/
theorem getTools_expiry_cases (now : Int) (st : CacheState) :
    (st.toolsCache = none → getTools now st = (none, st)) ∧
    (∀ e, st.toolsCache = some e → now - e.timestamp ≤ e.ttl →
      getTools now st = (some e.data, st)) ∧
    (∀ e, st.toolsCache = some e → e.ttl < now - e.timestamp →
      getTools now st = (none, { toolsCache := none })) := by
  refine ⟨fun h => ?_, fun e he hle => ?_, fun e he hlt => ?_⟩
  · simp [getTools, h]
  · simp [getTools, he, not_lt.mpr hle]
  · simp [getTools, he, hlt]

/-- Witness for getTools_expiry_cases: an entry set at 0 with TTL 100 is
served at time 100 and absent (with the entry cleared) at time 101. -/
theorem getTools_expiry_cases_witness :
    getTools 100 { toolsCache := some boundaryEntry } = (some [], { toolsCache := some boundaryEntry }) ∧
    getTools 101 { toolsCache := some boundaryEntry } = (none, { toolsCache := none }) :=
  ⟨(getTools_expiry_cases 100 { toolsCache := some boundaryEntry }).2.1 boundaryEntry rfl
     (by decide),
   (getTools_expiry_cases 101 { toolsCache := some boundaryEntry }).2.2 boundaryEntry rfl
     (by decide)⟩

/-- C4: with a configuration present, checkArgumentSize allows exactly when
the UTF-8 byte length of the JSON-serialized arguments is at most
maxArgChars * 1024 (the kilobyte ceiling converted to bytes) — the boundary
case size = ceiling is allowed and one byte over is denied — and a denial
reports the measured size and the ceiling in bytes; with no configuration
the check allows unconditionally. -/
theorem checkArgumentSize_cases (c : McpConfig) (args : Json) :
    ((serializedSize args : Int) ≤ c.maxArgChars * 1024 →
      checkArgumentSize (some c) args = { allowed := true, reason := none }) ∧
    (c.maxArgChars * 1024 < (serializedSize args : Int) →
      checkArgumentSize (some c) args =
        { allowed := false,
          reason := some ("Argument size " ++ toString ((serializedSize args : Nat) : Int) ++
            " bytes exceeds limit " ++ toString (c.maxArgChars * 1024) ++ " bytes") }) ∧
    (checkArgumentSize none args = { allowed := true, reason := none }) := by
  refine ⟨fun hle => ?_, fun hlt => ?_, rfl⟩
  · simp [checkArgumentSize, not_lt.mpr hle]
  · simp [checkArgumentSize, hlt]

/-- Witness for checkArgumentSize_cases: a 1 KB ceiling allows the
nine-byte argument object and no configuration allows it as well. -/
theorem checkArgumentSize_cases_witness :
    checkArgumentSize
      (some { enabled := true, serverUrl := "http://s", authToken := "", timeoutMs := 20000,
              maxArgChars := 1, allowTools := [], denyTools := [],
              refreshToolsOnStart := false }) (Json.obj [("q", Json.str "x")]) =
      { allowed := true, reason := none } ∧
    checkArgumentSize none (Json.obj [("q", Json.str "x")]) =
      { allowed := true, reason := none } :=
  ⟨(checkArgumentSize_cases _ (Json.obj [("q", Json.str "x")])).1 (by decide),
   (checkArgumentSize_cases
      { enabled := true, serverUrl := "http://s", authToken := "", timeoutMs := 20000,
        maxArgChars := 1, allowTools := [], denyTools := [],
        refreshToolsOnStart := false } (Json.obj [("q", Json.str "x")])).2.2⟩

/-- C9: getCacheAge never modifies the cache: the state comes back
unchanged, the value is the elapsed time since the entry was set (absent on
an empty cache), and even for an entry whose age is at or beyond its TTL the
entry stays in place — while getTools, on a strictly expired entry, clears
it. -/
theorem getCacheAge_pure (now : Int) (st : CacheState) :
    (getCacheAge now st).2 = st ∧
    (getCacheAge now st).1 = st.toolsCache.map (fun e => now - e.timestamp) ∧
    (∀ e, st.toolsCache = some e → e.ttl ≤ now - e.timestamp →
      (getCacheAge now st).1 = some (now - e.timestamp) ∧
      (getCacheAge now st).2.toolsCache = some e) ∧
    (∀ e, st.toolsCache = some e → e.ttl < now - e.timestamp →
      (getTools now st).2.toolsCache = none) := by
  refine ⟨?_, ?_, fun e he _ => ?_, fun e he hlt => ?_⟩
  · cases h : st.toolsCache <;> simp [getCacheAge, h]
  · cases h : st.toolsCache <;> simp [getCacheAge, h]
  · simp [getCacheAge, he]
  · simp [getTools, he, hlt]

/-- Witness for getCacheAge_pure: an entry set at 0 with TTL 100 queried at
time 250 reports age 250 and is left in place, while getTools at that time
clears it. -/
theorem getCacheAge_pure_witness :
    (getCacheAge 250 { toolsCache := some boundaryEntry }).1 = some 250 ∧
    (getCacheAge 250 { toolsCache := some boundaryEntry }).2.toolsCache = some boundaryEntry ∧
    (getTools 250 { toolsCache := some boundaryEntry }).2.toolsCache = none :=
  ⟨((getCacheAge_pure 250 { toolsCache := some boundaryEntry }).2.2.1 boundaryEntry rfl
      (by decide)).1,
   ((getCacheAge_pure 250 { toolsCache := some boundaryEntry }).2.2.1 boundaryEntry rfl
      (by decide)).2,
   (getCacheAge_pure 250 { toolsCache := some boundaryEntry }).2.2.2 boundaryEntry rfl
      (by decide)⟩

/-- Cache produced by setTools with an explicit negative TTL. -/
def negativeTtlCache : CacheState := setTools [] 0 (some (-1)) { toolsCache := none }

/-- C10 counterexample: setTools with an explicit TTL of -1 creates an
entry, yet getTools at the very same timestamp already treats it as expired
and clears it, without any explicit invalidation — so invalidation is not
the only way an entry expires immediately. -/
theorem setTools_negative_ttl_counterexample :
    negativeTtlCache.toolsCache ≠ none ∧
    (getTools 0 negativeTtlCache).1 = none ∧
    (getTools 0 negativeTtlCache).2.toolsCache = none := by
  refine ⟨?_, rfl, rfl⟩
  intro h
  simp [negativeTtlCache, setTools] at h

/-- C10 amended: setTools with an explicit TTL of 0 stores the default
five-minute TTL; no cache entry is ever created with a TTL of exactly zero;
and an entry created with an unspecified or nonnegative TTL never expires
immediately (a getTools query at the set timestamp returns the data) — but
an entry created with a negative explicit TTL does expire immediately even
without explicit invalidation. -/
theorem setTools_ttl_cases (tools : List RawAdaptedTool) (now : Int) (ttlMs : Option Int)
    (st : CacheState) :
    ((setTools tools now (some 0) st).toolsCache =
      some { data := tools, timestamp := now, ttl := defaultTtlMs }) ∧
    (∀ e, (setTools tools now ttlMs st).toolsCache = some e → e.ttl ≠ 0) ∧
    (∀ t, ttlMs = some t → 0 ≤ t →
      (getTools now (setTools tools now ttlMs st)).1 = some tools) ∧
    (ttlMs = none → (getTools now (setTools tools now ttlMs st)).1 = some tools) := by
  refine ⟨by simp [setTools, jsNumOr], fun e he => ?_, fun t ht h0 => ?_, fun hn => ?_⟩
  · simp [setTools] at he
    rcases ttlMs with _ | t
    · simp [jsNumOr] at he
      simp [← he, defaultTtlMs]
    · by_cases h0 : t = 0
      · simp [jsNumOr, h0] at he
        simp [← he, defaultTtlMs]
      · simp [jsNumOr, h0] at he
        simp [← he, h0]
  · subst ht
    by_cases h0' : t = 0
    · subst h0'
      simp [getTools, setTools, jsNumOr, defaultTtlMs]
    · have hpos : 0 < t := lt_of_le_of_ne h0 (Ne.symm h0')
      simp [getTools, setTools, jsNumOr, h0', not_lt.mpr (le_of_lt hpos)]
  · subst hn
    simp [getTools, setTools, jsNumOr, defaultTtlMs]

/-- Witness for setTools_ttl_cases: an entry set with TTL 0 carries the
default TTL of 300000 ms, and an entry set with no TTL is served
immediately. -/
theorem setTools_ttl_cases_witness :
    ((setTools [] 7 (some 0) { toolsCache := none }).toolsCache =
      some { data := [], timestamp := 7, ttl := defaultTtlMs }) ∧
    (getTools 7 (setTools [] 7 none { toolsCache := none })).1 = some [] :=
  ⟨(setTools_ttl_cases [] 7 (some 0) { toolsCache := none }).1,
   (setTools_ttl_cases [] 7 none { toolsCache := none }).2.2.2 rfl⟩

/-- C8: a tool name not starting with the namespace marker mcp_ is
forwarded unchanged (actualToolName is the name the orchestrator passes both
to checkToolAccess and to the protocol invocation), and a name starting with
mcp_ loses exactly its first four characters and nothing else. -/
theorem actualToolName_cases (name rest : String) :
    (jsStartsWith name "mcp_" = false → actualToolName name = name) ∧
    (jsStartsWith name "mcp_" = true → "mcp_" ++ actualToolName name = name) ∧
    actualToolName ("mcp_" ++ rest) = rest := by
  refine ⟨fun h => ?_, fun h => ?_, ?_⟩
  · simp [actualToolName, h]
  · rw [actualToolName, if_pos h]
    have h' : "mcp_".data.isPrefixOf name.data = true := h
    rcases ( List.isPrefixOf_iff_prefix.mp h' : "mcp_".data <+: name.data) with ⟨t, ht⟩
    apply String.ext
    rw [String.data_append]
    show "mcp_".data ++ (name.data.drop 4) = name.data
    rw [← ht, List.drop_left' (by rfl)]
  · have hpre : jsStartsWith ("mcp_" ++ rest) "mcp_" = true := by
      show ("mcp_".data.isPrefixOf ("mcp_" ++ rest).data) = true
      rw [String.data_append]
      exact List.isPrefixOf_iff_prefix.mpr ( List.prefix_append _ _)
    rw [actualToolName, if_pos hpre]
    apply String.ext
    show (("mcp_" ++ rest).data.drop 4) = rest.data
    rw [String.data_append, List.drop_left' (by rfl)]

/-- Witness for actualToolName_cases: a bare name passes unchanged, a
prefixed one is stripped of exactly the marker. -/
theorem actualToolName_cases_witness :
    actualToolName "search" = "search" ∧ actualToolName ("mcp_" ++ "search") = "search" :=
  ⟨(actualToolName_cases "search" "search").1 (by decide),
   (actualToolName_cases "search" "search").2.2⟩

/-- Configuration used for the callMcpTool evaluations: enabled, with empty
allow and deny lists and the default limits, so both policy checks pass. -/
def permissiveConfig : McpConfig :=
  { enabled := true, serverUrl := "http://s", authToken := "", timeoutMs := 20000,
    maxArgChars := 12000, allowTools := [], denyTools := [],
    refreshToolsOnStart := false }

/-- Remote tools/call result reporting an execution-level error with the
text "boom". -/
def execErrorResult : McpCallToolResult :=
  { content := [{ type := "text", text := some "boom", data := none, mimeType := none }],
    isError := true }

/-- Environment in which connect succeeds and the tools/call request
returns the execution-level error result. -/
def execErrorEnv : OrchEnv :=
  { connectOutcome := .ok (), discoveredTools := [], reqOutcome := .ok execErrorResult }

/-- Initial state with a closed session, an empty cache and the permissive
configuration already stored in the policy. -/
def readyState : SysState :=
  { sessionOpen := false, cache := { toolsCache := none },
    policyConfig := some permissiveConfig }

/-- C1: evaluation of the divergence.  Both policy checks pass, the remote
tool reports an execution-level error (isError set, text "boom"), yet
callMcpTool returns the failure tagged MCP_CONNECTION_ERROR, not
MCP_SERVER_ERROR: McpClient.callTool raises a ServerError for an isError
result instead of returning it, so the orchestrator's catch-all tags it as a
connection failure and its own MCP_SERVER_ERROR branch is unreachable. -/
theorem callMcpTool_isError_misclassified :
    (callMcpTool execErrorEnv "tool1" (Json.obj []) permissiveConfig readyState).1 =
      { success := false, result := none, error := some "MCP_CONNECTION_ERROR: boom" } := by
  decide

/-- C6: starting from a closed session (the state between operations — each
operation opens its own session and none is shared across the discovery and
invocation lifecycles), both getMcpTools and callMcpTool leave the session
closed when they return, on the success path and on every failure path:
every branch that opened a session disconnects before returning. -/
theorem sessions_closed_after_ops (env : OrchEnv) (config : McpConfig) (now : Int)
    (toolName : String) (args : Json) (st : SysState) (h : st.sessionOpen = false) :
    (getMcpTools env config now st).2.sessionOpen = false ∧
    (callMcpTool env toolName args config st).2.sessionOpen = false := by
  constructor
  · unfold getMcpTools
    repeat' (first | simp [h] | split)
  · unfold callMcpTool
    repeat' (first | simp [h] | split)

/-- Witness for sessions_closed_after_ops: discovery and an invocation whose
remote call reports an error both end with the session closed. -/
theorem sessions_closed_after_ops_witness :
    (getMcpTools execErrorEnv permissiveConfig 0 readyState).2.sessionOpen = false ∧
    (callMcpTool execErrorEnv "tool1" (Json.obj []) permissiveConfig readyState).2.sessionOpen =
      false :=
  sessions_closed_after_ops execErrorEnv permissiveConfig 0 "tool1" (Json.obj []) readyState rfl

/-- Well-formed raw tool descriptor with the given name. -/
def wellFormedTool (nm : String) : JSValue :=
  JSValue.obj [("name", JSValue.str nm), ("description", JSValue.str "d"),
    ("inputSchema", JSValue.obj [("properties", JSValue.obj []), ("required", JSValue.arr [])])]

/-- Discovery response whose tools array holds three well-formed
descriptors followed by one malformed (null) entry. -/
def mixedToolsResponse : JSValue :=
  JSValue.obj [("result", JSValue.obj [("tools",
    JSValue.arr [wellFormedTool "a", wellFormedTool "b", wellFormedTool "c", JSValue.null])])]

/-- Success test of an Except value. -/
def exceptIsOk {ε α : Type} : Except ε α → Bool
  | .ok _ => true
  | .error _ => false

/-- C5 counterexample: a response with three well-formed descriptors (each
of which adapts successfully on its own) and one malformed null entry does
not yield three adapted tools — accessing `.name` on the null entry raises,
the catch swallows the whole batch, and listTools returns zero entries. -/
theorem listTools_malformed_counterexample :
    (jsonListTools mixedToolsResponse).length = 0 ∧
    exceptIsOk ([wellFormedTool "a", wellFormedTool "b", wellFormedTool "c"].mapM adaptRawTool) =
      true :=
  ⟨rfl, rfl⟩

/-- C5 amended: listTools does not skip malformed entries per-entry.  The
whole tools array is mapped: when every entry adapts (objects, even ones
missing name or description, adapt with defaulted fields and are kept), all
of them are returned; when any entry raises (null or undefined entries do),
the surrounding catch returns the empty list — the call itself still never
raises, but well-formed entries in a batch with a raising entry are lost
rather than returned. -/
theorem listTools_batch_behavior (ts : List JSValue) :
    jsonListTools (JSValue.obj [("result", JSValue.obj [("tools", JSValue.arr ts)])]) =
      (match ts.mapM adaptRawTool with
       | .ok adapted => adapted
       | .error _ => []) := by
  have key : jsonListToolsCore (JSValue.obj [("result", JSValue.obj [("tools", JSValue.arr ts)])]) =
      ts.mapM adaptRawTool := rfl
  unfold jsonListTools
  rw [key]

/-- Reduction of a successful Except bind. -/
theorem except_bind_ok {ε α β : Type} (a : α) (f : α → Except ε β) :
    (Except.ok a : Except ε α) >>= f = f a := rfl

/-- Decoding a parsed frame in the SSE branch (with its catch) agrees with
the plain-JSON branch (with its catch) on every parsed value: the two
branches normalize the same envelope identically. -/
theorem frameDecode_eq_jsonListTools (v : JSValue) :
    (match frameDecode v with
     | .ok l => l
     | .error _ => []) = jsonListTools v := by
  unfold frameDecode jsonListTools jsonListToolsCore
  cases hr : getField v "result" with
  | error e => rfl
  | ok r =>
    simp only [except_bind_ok]
    generalize optChain r "tools" = t
    cases t with
    | undefined => rfl
    | null => rfl
    | bool b => cases b <;> rfl
    | num n =>
      by_cases h0 : n = 0
      · subst h0
        rfl
      · have : (n != 0) = true := by simpa using h0
        simp only [truthy, this]
        rfl
    | str s =>
      by_cases h0 : s = ""
      · subst h0
        rfl
      · have : (s != "") = true := by simpa using h0
        simp only [truthy, this]
        rfl
    | arr elems =>
      show (match (Except.map some (elems.mapM adaptRawTool) >>= fun mapped =>
              match mapped with
              | some tools => Except.ok tools
              | none => Except.ok ([] : List RawAdaptedTool)) with
            | .ok l => l
            | .error _ => []) =
          (match elems.mapM adaptRawTool with
           | .ok l => l
           | .error _ => [])
      cases hm : elems.mapM adaptRawTool with
      | error e => rfl
      | ok l => rfl
    | obj fields => rfl

/-- Splitting a newline-free buffer yields that single line. -/
theorem lineSplit_no_newline (a : List Char) (h : '\n' ∉ a) : lineSplit a = [a] := by
  induction a with
  | nil => rfl
  | cons c rest ih =>
    have hc : c ≠ '\n' := fun hc => h (hc ▸ List.mem_cons_self c rest)
    have hrest : '\n' ∉ rest := fun hm => h (List.mem_cons_of_mem c hm)
    simp [lineSplit, hc, ih hrest]

/-- Splitting a buffer whose first newline separates a complete line yields
that line followed by the split of the remainder. -/
theorem lineSplit_append_newline (a b : List Char) (h : '\n' ∉ a) :
    lineSplit (a ++ '\n' :: b) = a :: lineSplit b := by
  induction a with
  | nil => simp [lineSplit]
  | cons c rest ih =>
    have hc : c ≠ '\n' := fun hc => h (hc ▸ List.mem_cons_self c rest)
    have hrest : '\n' ∉ rest := fun hm => h (List.mem_cons_of_mem c hm)
    simp [lineSplit, hc, ih hrest]

/-- One step of the SSE read loop on a delivered chunk. -/
theorem sseLoop_cons (parse : List Char → Option JSValue) (buffer chunk : List Char)
    (rest : List (List Char)) :
    sseLoop parse buffer (chunk :: rest) =
      (match scanLines parse (lineSplit (buffer ++ chunk)) with
       | some .done => .ok []
       | some (.parsed v) => frameDecode v
       | none => sseLoop parse (buffer ++ chunk) rest) := rfl

/-- C7: for every tools/list result payload, decoding a streaming SSE
discovery response whose data frames eventually carry the parsed JSON result
— here split over three frames: a heartbeat line, a partial data frame whose
payload does not yet parse, and the completing remainder — yields exactly
the tool list that the single-frame plain-JSON branch produces for the same
parsed value; the two framing styles are handled identically. -/
theorem sse_json_decode_agree (parse : List Char → Option JSValue)
    (hb p q : List Char) (v : JSValue)
    (hhb : dataPrefix.isPrefixOf hb = false)
    (hbn : '\n' ∉ hb) (hpn : '\n' ∉ p) (hqn : '\n' ∉ q)
    (hp : parse p = none) (hpd : p ≠ doneSentinel)
    (hr : parse (p ++ q) = some v) (hrd : p ++ q ≠ doneSentinel) :
    sseListTools parse [hb ++ ['\n'], dataPrefix ++ p, q] = jsonListTools v := by
  have hdp6 : dataPrefix.length = 6 := by decide
  have hpre : ∀ x : List Char, dataPrefix.isPrefixOf (dataPrefix ++ x) = true := fun x =>
    List.isPrefixOf_iff_prefix.mpr ( List.prefix_append _ _)
  have hdrop : ∀ x : List Char, (dataPrefix ++ x).drop 6 = x := fun x => List.drop_left' hdp6
  have hnil : dataPrefix.isPrefixOf ([] : List Char) = false := by decide
  have hdpnl : '\n' ∉ dataPrefix := by decide
  have hdpp : '\n' ∉ dataPrefix ++ p := by
    intro hmem
    rcases List.mem_append.mp hmem with h1 | h1
    exacts [hdpnl h1, hpn h1]
  have hdppq : '\n' ∉ dataPrefix ++ (p ++ q) := by
    intro hmem
    rcases List.mem_append.mp hmem with h1 | h1
    · exact hdpnl h1
    · rcases List.mem_append.mp h1 with h2 | h2
      exacts [hpn h2, hqn h2]
  have scan1 : scanLines parse (lineSplit (hb ++ ['\n'])) = none := by
    have e : hb ++ ['\n'] = hb ++ '\n' :: ([] : List Char) := rfl
    rw [e, lineSplit_append_newline hb [] hbn]
    simp [scanLines, lineSplit, hhb, hnil]
  have buf2 : (hb ++ ['\n']) ++ (dataPrefix ++ p) = hb ++ '\n' :: (dataPrefix ++ p) := by
    simp
  have scan2 : scanLines parse (lineSplit ((hb ++ ['\n']) ++ (dataPrefix ++ p))) = none := by
    rw [buf2, lineSplit_append_newline hb _ hbn, lineSplit_no_newline _ hdpp]
    simp [scanLines, hhb, hpre, hdrop, hpd, hp]
  have buf3 : ((hb ++ ['\n']) ++ (dataPrefix ++ p)) ++ q =
      hb ++ '\n' :: (dataPrefix ++ (p ++ q)) := by
    simp
  have scan3 : scanLines parse (lineSplit (((hb ++ ['\n']) ++ (dataPrefix ++ p)) ++ q)) =
      some (ScanHit.parsed v) := by
    rw [buf3, lineSplit_append_newline hb _ hbn, lineSplit_no_newline _ hdppq]
    simp [scanLines, hhb, hpre, hdrop, hrd, hr]
  unfold sseListTools
  simp only [sseLoop_cons, List.nil_append, scan1, scan2, scan3]
  exact frameDecode_eq_jsonListTools v

/-- Envelope carrying one well-formed tool, used as the parsed discovery
result of the SSE/JSON agreement witness. -/
def sampleEnvelope : JSValue :=
  JSValue.obj [("result", JSValue.obj [("tools", JSValue.arr [wellFormedTool "alpha"])])]

/-- Concrete stand-in for JSON.parse: only the complete payload parses. -/
def sampleParse (s : List Char) : Option JSValue :=
  if s = "RESULT".data then some sampleEnvelope else none

/-- Witness for sse_json_decode_agree: a heartbeat frame, a partial data
frame and its completion decode to the same list as the plain-JSON branch on
the parsed envelope. -/
theorem sse_json_decode_agree_witness :
    sseListTools sampleParse [": hb".data ++ ['\n'], dataPrefix ++ "RES".data, "ULT".data] =
      jsonListTools sampleEnvelope :=
  sse_json_decode_agree sampleParse ": hb".data "RES".data "ULT".data sampleEnvelope
    (by decide) (by decide) (by decide) (by decide) rfl (by decide) rfl (by decide)

end Copilot
